import Mathlib

/-!
Verification development for the Paping TCP connectivity probe
(`src/main.go`).  The source is a single Go file; the definitions below
are a shallow embedding of its pure content:

* `ConnectionStats` embeds the Go struct `ConnectionStats` (main.go:19-27);
  the three counters are `Nat` and the three `time.Duration` fields are
  modelled as `Nat` nanosecond magnitudes (durations produced by
  `time.Since` are non-negative).
* `getIPInfo` embeds the function of the same name (main.go:79-93) over an
  abstract model of the HTTP response.
* `ping` embeds the body of `ping` (main.go:43-77): the statistics update
  and the log line it emits, parameterised by the outcome of the two
  effectful calls (`getIPInfo`, `net.DialTimeout`).
* `successRate` and `printReport` embed `printReport` (main.go:131-144);
  Go's `float64` arithmetic on that line is modelled by `GoF64`, rationals
  extended with NaN and the infinities (the only inexact float operation
  on the modelled path is the average's division, kept as an exact
  rational).
* `isValidPort`, `isValidIP` embed the validators (main.go:35-41).
  `isValidIP` calls `net.ParseIP`; its parsing algorithm (Go stdlib
  `net`/`netip`) is embedded below over `List Char`.
-/

/-- Embeds the Go struct `ConnectionStats` (main.go:19-27), minus the mutex:
all updates in the source happen under the single lock, so the sequential
model below is exact for every interleaving. Durations in nanoseconds. -/
structure ConnectionStats where
  attempted : Nat
  connected : Nat
  failed : Nat
  minTime : Nat
  maxTime : Nat
  totalTime : Nat
deriving DecidableEq, Repr

/-- The Go zero value `&ConnectionStats{}` (main.go:112). -/
def initStats : ConnectionStats :=
  { attempted := 0, connected := 0, failed := 0
    minTime := 0, maxTime := 0, totalTime := 0 }

/-- Embeds the Go struct `IPInfo` (main.go:29-31): the decoded `org` field. -/
structure IPInfo where
  org : String
deriving DecidableEq, Repr

/-- Model of the body of the HTTP response consumed by
`json.NewDecoder(resp.Body).Decode(&ipInfo)` (main.go:87).
`obj fields` is a well-formed JSON object whose `org` member, when present,
is a string; every body on which the decode errors (syntactically invalid
JSON, a non-object top-level value, an `org` member that is not a string)
is collapsed into the two error constructors. -/
inductive JsonBody
  | malformed
  | nonObject
  | obj (fields : List (String × String))
deriving DecidableEq, Repr

/-- Model of the result of `http.Get` (main.go:80): either a transport
error (`err != nil`) or a response carrying a status code and a body.
Go's `http.Get` does NOT treat non-2xx statuses as errors. -/
inductive HttpResult
  | netError
  | response (status : Nat) (body : JsonBody)
deriving DecidableEq, Repr

/-- The decode step of main.go:86-90. Mirrors `encoding/json`: failure on a
malformed body or a non-object value; on an object, a missing `org` member
leaves the struct field at its zero value `""`; with duplicate keys the
last occurrence wins (hence the `reverse`). -/
def decodeIPInfo : JsonBody → Option IPInfo
  | .malformed => none
  | .nonObject => none
  | .obj fields => some ⟨(fields.reverse.lookup "org").getD ""⟩

/-- Embeds `getIPInfo` (main.go:79-93): a transport error propagates, the
body is decoded, and — exactly as in the source — `resp.StatusCode` is
never examined. -/
def getIPInfo : HttpResult → Except String IPInfo
  | .netError => .error "http"
  | .response _status body =>
    match decodeIPInfo body with
    | none => .error "json"
    | some info => .ok info

/-- True on the `err != nil` branch of a Go `(value, err)` return. -/
def isErr : Except String IPInfo → Bool
  | .error _ => true
  | .ok _ => false

/-- The one log line each probe emits (main.go:51, 58, 65). -/
inductive LogLine
  | lookupFailed
  | connTimedOut
  | connected (isp : String)
deriving DecidableEq, Repr

/-- Embeds the body of `ping` (main.go:43-77), parameterised by the results
of its two effectful calls: `lookupResult` is what `getIPInfo` returned
(main.go:49) and `connectResult` is `none` when `net.DialTimeout` failed,
`some duration` (nanoseconds, the `time.Since` measurement of main.go:64)
when it succeeded. Returns the updated statistics and the log line. -/
def ping (lookupResult : Except String IPInfo) (connectResult : Option Nat)
    (stats : ConnectionStats) : ConnectionStats × LogLine :=
  match lookupResult with
  | .error _ => ({ stats with failed := stats.failed + 1 }, .lookupFailed)
  | .ok ipInfo =>
    match connectResult with
    | none => ({ stats with failed := stats.failed + 1 }, .connTimedOut)
    | some duration =>
      let s1 : ConnectionStats :=
        { stats with connected := stats.connected + 1
                     totalTime := stats.totalTime + duration }
      let s2 : ConnectionStats :=
        if s1.minTime = 0 ∨ duration < s1.minTime
        then { s1 with minTime := duration } else s1
      let s3 : ConnectionStats :=
        if duration > s2.maxTime then { s2 with maxTime := duration } else s2
      ({ s3 with attempted := s3.attempted + 1 }, .connected ipInfo.org)

/-- A completed probe's outcome, abstracting the environment: the lookup
failed, the TCP connect failed, or the connect succeeded with the given
measured duration in nanoseconds. -/
inductive Outcome
  | lookupFailure
  | connectFailure
  | success (duration : Nat)
deriving DecidableEq, Repr

/-- The statistics update a single probe with the given outcome performs,
via `ping`. (The lookup result and ISP string fed in for the non-lookup
outcomes are irrelevant to the statistics fields.) -/
def pingUpdate : Outcome → ConnectionStats → ConnectionStats
  | .lookupFailure, s => (ping (.error "http") none s).1
  | .connectFailure, s => (ping (.ok ⟨""⟩) none s).1
  | .success d, s => (ping (.ok ⟨""⟩) (some d) s).1

/-- The statistics after a sequence of completed probes, starting from the
zero value. Updates are serialized by the mutex in the source, so a list
fold is an exact model of any execution. -/
def runProbes (outcomes : List Outcome) : ConnectionStats :=
  outcomes.foldl (fun s o => pingUpdate o s) initStats

/-- Number of successful outcomes in a sequence. -/
def countSuccesses (outcomes : List Outcome) : Nat :=
  outcomes.countP fun o => match o with | .success _ => true | _ => false

/-- Number of failed outcomes (lookup or connect) in a sequence. -/
def countFailures (outcomes : List Outcome) : Nat :=
  outcomes.countP fun o => match o with | .success _ => false | _ => true

/-- Model of a Go `float64` value as it occurs on the modelled paths:
a finite value is kept as an exact rational (every conversion
`float64(intValue)` appearing in the source is exact for realistic
magnitudes; the only rounded operation, the average's division in
`printReport`, is kept exact and noted there). NaN and the infinities
follow IEEE 754 semantics. -/
inductive GoF64
  | fin (q : ℚ)
  | nan
  | posInf
  | negInf
deriving DecidableEq, Repr

/-- IEEE 754 division for the values above: `0/0 = NaN`, `±x/0 = ±Inf`
for finite `x ≠ 0`, NaN propagates, `±Inf / finite` keeps the sign,
`Inf/Inf = NaN`. -/
def goDiv : GoF64 → GoF64 → GoF64
  | .nan, _ => .nan
  | _, .nan => .nan
  | .fin a, .fin b =>
    if b = 0 then
      (if a = 0 then .nan else if 0 < a then .posInf else .negInf)
    else .fin (a / b)
  | .fin _, .posInf => .fin 0
  | .fin _, .negInf => .fin 0
  | .posInf, .fin b => if b < 0 then .negInf else .posInf
  | .negInf, .fin b => if b < 0 then .posInf else .negInf
  | .posInf, .posInf => .nan
  | .posInf, .negInf => .nan
  | .negInf, .posInf => .nan
  | .negInf, .negInf => .nan

/-- IEEE 754 multiplication for the values above: NaN propagates,
`Inf * 0 = NaN`, otherwise infinities keep the product's sign. -/
def goMul : GoF64 → GoF64 → GoF64
  | .nan, _ => .nan
  | _, .nan => .nan
  | .fin a, .fin b => .fin (a * b)
  | .posInf, .fin b =>
    if b = 0 then .nan else if 0 < b then .posInf else .negInf
  | .negInf, .fin b =>
    if b = 0 then .nan else if 0 < b then .negInf else .posInf
  | .fin a, .posInf =>
    if a = 0 then .nan else if 0 < a then .posInf else .negInf
  | .fin a, .negInf =>
    if a = 0 then .nan else if 0 < a then .negInf else .posInf
  | .posInf, .posInf => .posInf
  | .posInf, .negInf => .negInf
  | .negInf, .posInf => .negInf
  | .negInf, .negInf => .posInf

/-- Embeds main.go:135:
`successRate := float64(stats.Connected) / float64(stats.Attempted) * 100`.
There is no guard: when `Attempted` is zero the division by zero happens. -/
def successRate (stats : ConnectionStats) : GoF64 :=
  goMul (goDiv (.fin stats.connected) (.fin stats.attempted)) (.fin 100)

/-- Go's `time.Duration.Milliseconds()`: integer division of the
nanosecond count by 10^6 (truncation; durations here are non-negative). -/
def durMs (d : Nat) : Nat := d / 1000000

/-- The data `printReport` (main.go:131-144) renders: the three counters,
the success rate of main.go:135, and — only inside the
`if stats.Connected > 0` block of main.go:140-143 — the latency line with
`MinTime.Milliseconds()`, `MaxTime.Milliseconds()` and
`averageTime := float64(stats.TotalTime.Milliseconds()) / float64(stats.Connected)`
(the division exact here where Go rounds to the nearest float64). -/
structure Report where
  attempted : Nat
  connected : Nat
  failed : Nat
  rate : GoF64
  latency : Option (Nat × Nat × GoF64)
deriving DecidableEq, Repr

/-- Embeds `printReport` (main.go:131-144) as the report value it prints. -/
def printReport (stats : ConnectionStats) : Report :=
  { attempted := stats.attempted
    connected := stats.connected
    failed := stats.failed
    rate := successRate stats
    latency :=
      if stats.connected > 0 then
        some (durMs stats.minTime, durMs stats.maxTime,
          goDiv (.fin (durMs stats.totalTime)) (.fin stats.connected))
      else none }

/-- Average latency as the claim states it (`totalLatency / connected`),
as an exact rational over the nanosecond fields. -/
def avgLatency (stats : ConnectionStats) : ℚ :=
  (stats.totalTime : ℚ) / (stats.connected : ℚ)

/-- Decidable form of "every successful outcome in the list has a strictly
positive measured duration". -/
def allSuccessPos (outcomes : List Outcome) : Bool :=
  outcomes.all fun o => match o with | .success d => decide (0 < d) | _ => true

/-- Embeds `isValidPort` (main.go:39-41):
`return port >= 0 && port <= 65535`, over Go's `int` modelled as ℤ. -/
def isValidPort (port : Int) : Bool :=
  decide (port ≥ 0) && decide (port ≤ 65535)

/-- The latency bookkeeping invariant of the statistics record: before the
first success the three duration fields sit at the zero value; once
`connected > 0` the minimum is positive (which is exactly what fails when
a zero-duration success occurs, see C9/C2), the extrema are ordered, and
the total is bracketed by `connected` copies of each extremum. -/
def statsInv (s : ConnectionStats) : Prop :=
  (s.connected = 0 → s.minTime = 0 ∧ s.maxTime = 0 ∧ s.totalTime = 0)
  ∧ (0 < s.connected →
      0 < s.minTime ∧ s.minTime ≤ s.maxTime
      ∧ s.minTime * s.connected ≤ s.totalTime
      ∧ s.totalTime ≤ s.maxTime * s.connected)

/-!
### The `net.ParseIP` embedding

`isValidIP` (main.go:35-37) is `net.ParseIP(ip) != nil`. `net.ParseIP`
delegates to `netip.ParseAddr` and then rejects any address carrying a
zone. The parsing algorithm (Go stdlib `net/netip`) is embedded below
over `List Char`; the embedding models validity only (the parsed bytes
never influence acceptance). Two simplifications, both
acceptance-neutral:

* Bytes vs characters: the Go code scans bytes; `'.'`, `':'`, `'%'` and
  all digits are ASCII and never occur inside a multi-byte UTF-8
  character, and any non-ASCII character makes every parser below (and
  the Go one) reject, so scanning characters decides the same set.
* Zones: `netip` would split a `%zone` suffix off an IPv6 literal, but
  `net.ParseIP` rejects every address whose zone is non-empty, and an
  empty zone is a parse error; hence a `%` anywhere yields `nil` overall,
  and the embedding treats `%` as an invalid character throughout.
-/

/-- Decimal digit test, as in the Go scanners (`c >= '0' && c <= '9'`). -/
def isDigitChar (c : Char) : Prop := '0' ≤ c ∧ c ≤ '9'

instance (c : Char) : Decidable (isDigitChar c) := by
  unfold isDigitChar; infer_instance

/-- Hexadecimal digit value, as accepted by the group scanner of Go
`netip.parseIPv6`. -/
def hexDigitVal (c : Char) : Option Nat :=
  if '0' ≤ c ∧ c ≤ '9' then some (c.toNat - '0'.toNat)
  else if 'a' ≤ c ∧ c ≤ 'f' then some (c.toNat - 'a'.toNat + 10)
  else if 'A' ≤ c ∧ c ≤ 'F' then some (c.toNat - 'A'.toNat + 10)
  else none

/-- Embeds Go `netip.parseIPv4Fields` restricted to acceptance: `val` is
the current field's accumulated value, `digLen` the number of digits seen
in the current field, `pos` the number of completed fields. Mirrors the
source checks in order: a digit after a lone leading zero is rejected, a
field value above 255 is rejected, a dot needs a digit before it, cannot
be last, and only three dots are allowed; at the end exactly three dots
must have been seen. -/
def parseIPv4Fields : List Char → Nat → Nat → Nat → Bool
  | [], _val, _digLen, pos => pos == 3
  | c :: cs, val, digLen, pos =>
    if isDigitChar c then
      if digLen == 1 && val == 0 then false
      else
        let val2 := val * 10 + (c.toNat - '0'.toNat)
        if val2 > 255 then false
        else parseIPv4Fields cs val2 (digLen + 1) pos
    else if c = '.' then
      if digLen == 0 then false
      else if cs = [] then false
      else if pos == 3 then false
      else parseIPv4Fields cs 0 0 (pos + 1)
    else false

/-- Embeds `netip.parseIPv4` restricted to acceptance. -/
def parseIPv4 (s : List Char) : Bool := parseIPv4Fields s 0 0 0

/-- The hex-group scanner at the top of `netip.parseIPv6`'s loop: consume
leading hex digits of `s` into `acc`, stopping at the first non-hex
character; a fifth digit is an error (`none`). Returns the accumulated
value, the number of digits consumed, and the rest of the input. (The
`acc > 0xFFFF` check of the source is unreachable with at most four hex
digits and is subsumed.) -/
def scanHexGroup : List Char → Nat → Nat → Option (Nat × Nat × List Char)
  | [], acc, off => some (acc, off, [])
  | c :: cs, acc, off =>
    match hexDigitVal c with
    | none => some (acc, off, c :: cs)
    | some v =>
      if off > 3 then none
      else scanHexGroup cs (acc * 16 + v) (off + 1)

/-- The main loop of `netip.parseIPv6` restricted to acceptance. State
mirrors the source: `i` is the number of address bytes filled (the loop
runs while `i < 16`), `ellipsisSeen` records whether a `::` has occurred.
Returns the exit state `(i, ellipsisSeen, remaining input)`, or `none` on
a parse error. Each iteration strictly increases `i` by at least 2, so
the loop runs at most 8 times; `fuel` only bounds the recursion and is
never the limiting factor when `2 * fuel + i ≥ 16`
(`parseIPv6Loop_fuel_stable` below) — `parseIPv6` passes `fuel = 8`,
`i = 0`. -/
def parseIPv6Loop (fuel : Nat) (s : List Char) (i : Nat) (ellipsisSeen : Bool) :
    Option (Nat × Bool × List Char) :=
  if i < 16 then
    match fuel with
    | 0 => none
    | fuel2 + 1 =>
      match scanHexGroup s 0 0 with
      | none => none
      | some (_acc, off, rest) =>
        if off = 0 then none
        else
          match rest with
          | [] => some (i + 2, ellipsisSeen, [])
          | c :: rest1 =>
            if c = '.' then
              if ellipsisSeen = false ∧ i ≠ 12 then none
              else if i + 4 > 16 then none
              else if parseIPv4Fields s 0 0 0 then some (i + 4, ellipsisSeen, [])
              else none
            else if c = ':' then
              match rest1 with
              | [] => none
              | c2 :: rest2 =>
                if c2 = ':' then
                  if ellipsisSeen then none
                  else if rest2.isEmpty then some (i + 2, true, [])
                  else parseIPv6Loop fuel2 rest2 (i + 2) true
                else parseIPv6Loop fuel2 rest1 (i + 2) ellipsisSeen
            else none
  else some (i, ellipsisSeen, s)

/-- The post-loop checks of `netip.parseIPv6`: a parse error is final; on
loop exit there must be no trailing input, and an ellipsis must be
present exactly when fewer than 16 bytes were filled (a `::` has to
expand to at least one zero group). -/
def ipv6Post : Option (Nat × Bool × List Char) → Bool
  | none => false
  | some (i, ell, rem) => rem.isEmpty && (if i < 16 then ell else !ell)

/-- Embeds `netip.parseIPv6` restricted to acceptance: the special case
for a leading `::` (with `"::"` alone valid), then the loop, then the
post-loop checks. -/
def parseIPv6 (s : List Char) : Bool :=
  match s with
  | c1 :: c2 :: rest =>
    if c1 = ':' ∧ c2 = ':' then
      if rest.isEmpty then true else ipv6Post (parseIPv6Loop 8 rest 0 true)
    else ipv6Post (parseIPv6Loop 8 (c1 :: c2 :: rest) 0 false)
  | _ => ipv6Post (parseIPv6Loop 8 s 0 false)

/-- The dispatch scan at the top of `netip.ParseAddr`: the first `.`,
`:` or `%` in the string decides the parser (`%` and a string with none
of the three are immediate errors). -/
def findSpecial : List Char → Option Char
  | [] => none
  | c :: cs =>
    if c = '.' ∨ c = ':' ∨ c = '%' then some c else findSpecial cs

/-- Embeds `net.ParseIP(s) != nil`: `netip.ParseAddr`'s dispatch on the
first special character, with `%` (zones) rejected as explained above. -/
def goParseIPValid (s : List Char) : Bool :=
  match findSpecial s with
  | some c =>
    if c = '.' then parseIPv4 s
    else if c = ':' then parseIPv6 s
    else false
  | none => false

/-- Embeds `isValidIP` (main.go:35-37): `return net.ParseIP(ip) != nil`. -/
def isValidIP (ip : String) : Bool := goParseIPValid ip.data

/-! ### Basic shape lemmas about a single update -/

theorem pingUpdate_lookupFailure (s : ConnectionStats) :
    pingUpdate .lookupFailure s = { s with failed := s.failed + 1 } := rfl

theorem pingUpdate_connectFailure (s : ConnectionStats) :
    pingUpdate .connectFailure s = { s with failed := s.failed + 1 } := rfl

theorem pingUpdate_success (d : Nat) (s : ConnectionStats) :
    pingUpdate (.success d) s =
      { attempted := s.attempted + 1
        connected := s.connected + 1
        failed := s.failed
        minTime := if s.minTime = 0 ∨ d < s.minTime then d else s.minTime
        maxTime := if s.maxTime < d then d else s.maxTime
        totalTime := s.totalTime + d } := by
  simp only [pingUpdate, ping]
  split <;> split <;> simp_all [gt_iff_lt]

/-! ### Counter bookkeeping (claim C1) -/

theorem foldl_counters (outcomes : List Outcome) (s : ConnectionStats) :
    (outcomes.foldl (fun s o => pingUpdate o s) s).failed
        = s.failed + countFailures outcomes
    ∧ (outcomes.foldl (fun s o => pingUpdate o s) s).connected
        = s.connected + countSuccesses outcomes
    ∧ (outcomes.foldl (fun s o => pingUpdate o s) s).attempted
        = s.attempted + countSuccesses outcomes := by
  induction outcomes generalizing s with
  | nil => simp [countFailures, countSuccesses]
  | cons o rest ih =>
    obtain ⟨h1, h2, h3⟩ := ih (pingUpdate o s)
    refine ⟨?_, ?_, ?_⟩ <;>
      cases o <;>
      simp_all [countFailures, countSuccesses, List.countP_cons,
        pingUpdate_lookupFailure, pingUpdate_connectFailure,
        pingUpdate_success] <;>
      omega

/-! ### Claim C1: counter correspondence and the 100% success rate -/

/-- Claim C1: after any sequence of completed probe outcomes with S
successes and F failures, the statistics satisfy `failed = F`,
`connected = S` and `attempted = S` (`Attempted` is incremented only on
the success path, main.go:76), hence `connected = attempted` always, and
the success rate `connected/attempted*100` of main.go:135 is exactly 100
whenever `attempted > 0`. -/
theorem probes_counter_correspondence (outcomes : List Outcome) :
    (runProbes outcomes).failed = countFailures outcomes
    ∧ (runProbes outcomes).connected = countSuccesses outcomes
    ∧ (runProbes outcomes).attempted = countSuccesses outcomes
    ∧ (runProbes outcomes).connected = (runProbes outcomes).attempted
    ∧ ((runProbes outcomes).attempted ≠ 0 →
        successRate (runProbes outcomes) = GoF64.fin 100) := by
  obtain ⟨h1, h2, h3⟩ := foldl_counters outcomes initStats
  simp only [runProbes, initStats] at *
  refine ⟨by omega, by omega, by omega, by omega, ?_⟩
  intro ha
  have hconn : (List.foldl (fun s o => pingUpdate o s)
      { attempted := 0, connected := 0, failed := 0, minTime := 0,
        maxTime := 0, totalTime := 0 } outcomes).connected
      = (List.foldl (fun s o => pingUpdate o s)
      { attempted := 0, connected := 0, failed := 0, minTime := 0,
        maxTime := 0, totalTime := 0 } outcomes).attempted := by omega
  simp only [successRate, hconn, goDiv, goMul]
  have hq : ((List.foldl (fun s o => pingUpdate o s)
      { attempted := 0, connected := 0, failed := 0, minTime := 0,
        maxTime := 0, totalTime := 0 } outcomes).attempted : ℚ) ≠ 0 := by
    exact_mod_cast ha
  simp [hq, div_self hq]

/-- Witness for C1 at the concrete outcome sequence `[success 5, lookup
failure]`: one success, one failure, success rate exactly 100. -/
theorem probes_counter_correspondence_witness :
    (runProbes [Outcome.success 5, Outcome.lookupFailure]).failed = 1
    ∧ (runProbes [Outcome.success 5, Outcome.lookupFailure]).connected = 1
    ∧ (runProbes [Outcome.success 5, Outcome.lookupFailure]).attempted = 1
    ∧ successRate (runProbes [Outcome.success 5, Outcome.lookupFailure])
        = GoF64.fin 100 := by
  obtain ⟨h1, h2, h3, _, h5⟩ :=
    probes_counter_correspondence [Outcome.success 5, Outcome.lookupFailure]
  exact ⟨by simpa using h1, by simpa using h2, by simpa using h3,
    h5 (by decide)⟩

/-! ### Claim C3: a failed probe touches only the `failed` counter -/

/-- Claim C3: a probe that fails — at the organization lookup
(main.go:49-54) or at the TCP connect (main.go:56-61) — increments exactly
`Failed` by one and leaves every other statistics field (`Attempted`,
`Connected`, `MinTime`, `MaxTime`, `TotalTime`) unchanged: no latency is
recorded and `Attempted` is not incremented. -/
theorem failed_probe_increments_only_failed (e : String) (info : IPInfo)
    (connectResult : Option Nat) (s : ConnectionStats) :
    ping (.error e) connectResult s
      = ({ s with failed := s.failed + 1 }, LogLine.lookupFailed)
    ∧ ping (.ok info) none s
      = ({ s with failed := s.failed + 1 }, LogLine.connTimedOut) :=
  ⟨rfl, rfl⟩

/-! ### Claim C9: the zero-duration sentinel collision on `MinTime` -/

/-- Claim C9: `MinTime == 0` (main.go:70) doubles as the "unset" sentinel
and as a real measured value, so a success of duration exactly 0 leaves
`MinTime` at the sentinel and the next success overwrites it with its own
duration even when larger: after successes `[0, d]` with `d > 0`,
`minTime = d`, not the true minimum 0. -/
theorem min_time_zero_sentinel (d : Nat) (hd : 0 < d) :
    (runProbes [Outcome.success 0]).minTime = 0
    ∧ (runProbes [Outcome.success 0, Outcome.success d]).minTime = d
    ∧ (runProbes [Outcome.success 0, Outcome.success d]).minTime ≠ 0 := by
  have hrun : runProbes [Outcome.success 0, Outcome.success d]
      = pingUpdate (Outcome.success d)
          { attempted := 1, connected := 1, failed := 0,
            minTime := 0, maxTime := 0, totalTime := 0 } := rfl
  refine ⟨rfl, ?_, ?_⟩
  · rw [hrun, pingUpdate_success]
    simp
  · rw [hrun, pingUpdate_success]
    simp
    omega

/-- Witness for C9 at duration `d = 5`. -/
theorem min_time_zero_sentinel_witness :
    (runProbes [Outcome.success 0, Outcome.success 5]).minTime = 5 :=
  (min_time_zero_sentinel 5 (by decide)).2.1

/-! ### Claim C4: the unguarded success-rate division -/

/-- Claim C4: `printReport` computes the success rate as
`float64(connected) / float64(attempted) * 100` (main.go:135) with no
guard on `attempted == 0`: with zero attempts the division by zero yields
NaN (when `connected` is also 0, which holds in every state the probe
loop can produce) or +Inf (for an arbitrary record with
`connected > 0`), never a finite number. -/
theorem success_rate_division_by_zero :
    (∀ s : ConnectionStats, s.attempted = 0 →
        (printReport s).rate = GoF64.nan ∨ (printReport s).rate = GoF64.posInf)
    ∧ (∀ outcomes : List Outcome, (runProbes outcomes).attempted = 0 →
        (printReport (runProbes outcomes)).rate = GoF64.nan) := by
  constructor
  · intro s ha
    rcases Nat.eq_zero_or_pos s.connected with hc | hc
    · left
      simp [printReport, successRate, goDiv, goMul, ha, hc]
    · right
      have hcq : (0 : ℚ) < (s.connected : ℚ) := by exact_mod_cast hc
      simp [printReport, successRate, goDiv, goMul, ha, ne_of_gt hcq, hcq]
  · intro outcomes ha
    obtain ⟨h1, h2, h3⟩ := foldl_counters outcomes initStats
    have hc : (runProbes outcomes).connected = 0 := by
      simp only [runProbes, initStats] at *; omega
    simp [printReport, successRate, goDiv, goMul, ha, hc]

/-- Witness for C4: with a single failed probe, `attempted = 0` and the
reported rate is NaN. -/
theorem success_rate_division_by_zero_witness :
    (printReport (runProbes [Outcome.lookupFailure])).rate = GoF64.nan :=
  success_rate_division_by_zero.2 [Outcome.lookupFailure] (by decide)

/-! ### Claim C5: the latency section is printed iff `connected > 0` -/

/-- Claim C5: the final report carries the latency section (minimum,
maximum and average, with the average computed as
`totalTime.Milliseconds() / connected`, main.go:140-143) exactly when
`connected > 0`; with `connected = 0` the report has no latency section. -/
theorem latency_section_iff_connected (s : ConnectionStats) :
    ((printReport s).latency = none ↔ s.connected = 0)
    ∧ (0 < s.connected →
        (printReport s).latency =
          some (durMs s.minTime, durMs s.maxTime,
            goDiv (GoF64.fin (durMs s.totalTime)) (GoF64.fin s.connected))) := by
  constructor
  · simp only [printReport]
    split <;> (rename_i hcond; simp; omega)
  · intro h
    simp [printReport, h]

/-- Witness for C5 at a concrete record with one connection, and at the
all-failures record where the section is absent. -/
theorem latency_section_iff_connected_witness :
    (printReport
        { attempted := 1, connected := 1, failed := 0,
          minTime := 5000000, maxTime := 5000000, totalTime := 5000000 }).latency
      = some (5, 5, goDiv (GoF64.fin 5) (GoF64.fin 1))
    ∧ (printReport
        { attempted := 0, connected := 0, failed := 2,
          minTime := 0, maxTime := 0, totalTime := 0 }).latency = none := by
  constructor
  · exact (latency_section_iff_connected _).2 (by decide)
  · exact ((latency_section_iff_connected
      { attempted := 0, connected := 0, failed := 2,
        minTime := 0, maxTime := 0, totalTime := 0 }).1).mpr (by decide)

/-! ### Claim C2: extrema ordering and the average bound -/

theorem statsInv_pingUpdate (o : Outcome) (s : ConnectionStats)
    (hpos : ∀ d, o = Outcome.success d → 0 < d)
    (h : statsInv s) : statsInv (pingUpdate o s) := by
  obtain ⟨h0, h1⟩ := h
  cases o with
  | lookupFailure =>
    rw [pingUpdate_lookupFailure]; exact ⟨h0, h1⟩
  | connectFailure =>
    rw [pingUpdate_connectFailure]; exact ⟨h0, h1⟩
  | success d =>
    have hd : 0 < d := hpos d rfl
    rw [pingUpdate_success]
    unfold statsInv
    dsimp only
    rcases Nat.eq_zero_or_pos s.connected with hc | hc
    · obtain ⟨hmin, hmax, htot⟩ := h0 hc
      rw [hc, hmin, hmax, htot]
      refine ⟨fun hcontra => by omega, fun _ => ?_⟩
      rw [if_pos (Or.inl rfl), if_pos hd]
      exact ⟨hd, le_refl d, by omega, by omega⟩
    · obtain ⟨hm0, hmm, hlow, hhigh⟩ := h1 hc
      refine ⟨fun hcontra => by omega, fun _ => ?_⟩
      have key : ∀ m' M' : Nat, m' ≤ s.minTime → m' ≤ d →
          s.maxTime ≤ M' → d ≤ M' → 0 < m' →
          0 < m' ∧ m' ≤ M' ∧ m' * (s.connected + 1) ≤ s.totalTime + d
            ∧ s.totalTime + d ≤ M' * (s.connected + 1) := by
        intro m' M' ha hb hcap hdM hpos'
        refine ⟨hpos', le_trans (le_trans ha hmm) hcap, ?_, ?_⟩
        · calc m' * (s.connected + 1) = m' * s.connected + m' := by ring
            _ ≤ s.minTime * s.connected + d :=
                Nat.add_le_add (Nat.mul_le_mul_right _ ha) hb
            _ ≤ s.totalTime + d := Nat.add_le_add_right hlow d
        · calc s.totalTime + d ≤ s.maxTime * s.connected + d :=
                Nat.add_le_add_right hhigh d
            _ ≤ M' * s.connected + M' :=
                Nat.add_le_add (Nat.mul_le_mul_right _ hcap) hdM
            _ = M' * (s.connected + 1) := by ring
      refine key _ _ ?_ ?_ ?_ ?_ ?_ <;> (split <;> (rename_i hcond; omega))

theorem statsInv_foldl (outcomes : List Outcome) (s : ConnectionStats)
    (hpos : allSuccessPos outcomes = true) (h : statsInv s) :
    statsInv (outcomes.foldl (fun s o => pingUpdate o s) s) := by
  induction outcomes generalizing s with
  | nil => exact h
  | cons o rest ih =>
    simp only [allSuccessPos, List.all_cons, Bool.and_eq_true] at hpos
    refine ih _ ?_ (statsInv_pingUpdate o s ?_ h)
    · simpa [allSuccessPos] using hpos.2
    · intro d hd
      subst hd
      simpa using hpos.1

/-- Claim C2 is false as stated: after the outcome sequence
`[success 0, success 5]` — legal, a measured duration can be exactly
zero — the zero-duration success leaves `MinTime` at the zero sentinel
(main.go:70-72), the next success overwrites it with 5, and the average
`totalLatency / connected = 5/2` falls strictly below
`minLatency = 5`. -/
theorem avg_below_min_counterexample :
    0 < (runProbes [Outcome.success 0, Outcome.success 5]).connected
    ∧ ¬ (((runProbes [Outcome.success 0, Outcome.success 5]).minTime : ℚ)
          ≤ avgLatency (runProbes [Outcome.success 0, Outcome.success 5])) := by
  have h : runProbes [Outcome.success 0, Outcome.success 5]
      = { attempted := 2, connected := 2, failed := 0,
          minTime := 5, maxTime := 5, totalTime := 5 } := by decide
  constructor
  · decide
  · rw [h, avgLatency]
    dsimp only
    norm_num

/-- Claim C2, amended: for every sequence of probe outcomes whose success
durations are all strictly positive, whenever `connected > 0` the record
satisfies `minLatency ≤ maxLatency` and the average
`totalLatency / connected` lies within `[minLatency, maxLatency]`. (The
restriction is forced by the zero-duration sentinel collision above.) -/
theorem latency_extrema_bound_avg (outcomes : List Outcome)
    (hpos : allSuccessPos outcomes = true)
    (hconn : 0 < (runProbes outcomes).connected) :
    (runProbes outcomes).minTime ≤ (runProbes outcomes).maxTime
    ∧ ((runProbes outcomes).minTime : ℚ) ≤ avgLatency (runProbes outcomes)
    ∧ avgLatency (runProbes outcomes) ≤ ((runProbes outcomes).maxTime : ℚ) := by
  have hinv : statsInv (runProbes outcomes) :=
    statsInv_foldl outcomes initStats hpos (by constructor <;> simp [initStats])
  obtain ⟨-, h1⟩ := hinv
  obtain ⟨hm0, hmm, hlow, hhigh⟩ := h1 hconn
  have hcq : (0 : ℚ) < ((runProbes outcomes).connected : ℚ) := by
    exact_mod_cast hconn
  refine ⟨hmm, ?_, ?_⟩
  · rw [avgLatency, le_div_iff₀ hcq]
    exact_mod_cast hlow
  · rw [avgLatency, div_le_iff₀ hcq]
    exact_mod_cast hhigh

/-- Witness for the amended C2 at `[success 3, success 5]`:
`min = 3 ≤ max = 5`, and the average `8/2 = 4` lies in `[3, 5]`. -/
theorem latency_extrema_bound_avg_witness :
    (runProbes [Outcome.success 3, Outcome.success 5]).minTime
        ≤ (runProbes [Outcome.success 3, Outcome.success 5]).maxTime
    ∧ ((runProbes [Outcome.success 3, Outcome.success 5]).minTime : ℚ)
        ≤ avgLatency (runProbes [Outcome.success 3, Outcome.success 5])
    ∧ avgLatency (runProbes [Outcome.success 3, Outcome.success 5])
        ≤ ((runProbes [Outcome.success 3, Outcome.success 5]).maxTime : ℚ) :=
  latency_extrema_bound_avg [Outcome.success 3, Outcome.success 5]
    (by decide) (by decide)

/-! ### Claim C7: port validation -/

/-- Claim C7: for every integer `n`, `isValidPort n` is true exactly when
`0 ≤ n ≤ 65535`; in particular 0 and 65535 are accepted while 65536 and
-1 are rejected. -/
theorem valid_port_iff (n : Int) :
    (isValidPort n = true ↔ 0 ≤ n ∧ n ≤ 65535)
    ∧ isValidPort 0 = true ∧ isValidPort 65535 = true
    ∧ isValidPort 65536 = false ∧ isValidPort (-1) = false := by
  refine ⟨?_, by decide, by decide, by decide, by decide⟩
  simp [isValidPort, ge_iff_le]

/-- Witness for C7: `valid_port_iff` applied at the in-range port 8080. -/
theorem valid_port_iff_witness : isValidPort 8080 = true :=
  (valid_port_iff 8080).1.mpr (by decide)

/-! ### Claims C6 and C10: the organization lookup -/

theorem lookup_none_of_no_org (l : List (String × String))
    (h : ∀ p ∈ l, p.1 ≠ "org") : l.lookup "org" = none := by
  induction l with
  | nil => rfl
  | cons p rest ih =>
    obtain ⟨k, v⟩ := p
    have hk : k ≠ "org" := h (k, v) (List.mem_cons_self _ _)
    have hbeq : ("org" == k) = false := by
      simp only [beq_eq_false_iff_ne, ne_eq]
      exact fun hh => hk hh.symm
    simp only [List.lookup, hbeq]
    exact ih fun p hp => h p (List.mem_cons_of_mem _ hp)

/-- Claim C6 is false as stated: the source never inspects
`resp.StatusCode` (main.go:80-92), so a response with a non-success
status whose body is a well-formed JSON object decodes fine and the
lookup succeeds — here a 404 carrying `{"error": "rate limited"}` yields
`ok` with an empty organization, where the claim demands a
`LookupError`. -/
theorem status_ignored_counterexample :
    getIPInfo (HttpResult.response 404 (JsonBody.obj [("error", "rate limited")]))
      = Except.ok ⟨""⟩
    ∧ isErr (getIPInfo
        (HttpResult.response 404 (JsonBody.obj [("error", "rate limited")])))
      = false := by
  exact ⟨rfl, rfl⟩

/-- Claim C6, amended: `getIPInfo` returns an error exactly when the HTTP
GET suffers a transport error or the response body fails to decode
(malformed JSON or a non-object value); the HTTP status code is never
examined, so a non-success response with a decodable object body
succeeds, returning the `org` field of the JSON object (last occurrence,
empty string when absent). -/
theorem lookup_error_iff (r : HttpResult) :
    (isErr (getIPInfo r) = true ↔
      r = HttpResult.netError
      ∨ (∃ st, r = HttpResult.response st JsonBody.malformed)
      ∨ (∃ st, r = HttpResult.response st JsonBody.nonObject))
    ∧ (∀ st fields, getIPInfo (HttpResult.response st (JsonBody.obj fields))
        = Except.ok ⟨(fields.reverse.lookup "org").getD ""⟩) := by
  constructor
  · cases r with
    | netError => simp [getIPInfo, isErr]
    | response st body =>
      cases body <;> simp [getIPInfo, decodeIPInfo, isErr]
  · intro st fields
    simp [getIPInfo, decodeIPInfo]

/-- Witness for the amended C6: a transport error is reported as an
error. -/
theorem lookup_error_iff_witness : isErr (getIPInfo HttpResult.netError) = true :=
  (lookup_error_iff HttpResult.netError).1.mpr (Or.inl rfl)

/-- Claim C10: when the metadata service returns a syntactically valid
JSON object without an `org` member, the decode succeeds with the zero
value `""` (main.go:29-31, 86-90), the probe does not take the
lookup-failure branch — it proceeds to the TCP connect — and a
successful connect logs an empty ISP string (main.go:65). -/
theorem missing_org_yields_empty_isp (st : Nat)
    (fields : List (String × String)) (hno : ∀ p ∈ fields, p.1 ≠ "org")
    (connectResult : Option Nat) (s : ConnectionStats) (d : Nat) :
    getIPInfo (HttpResult.response st (JsonBody.obj fields)) = Except.ok ⟨""⟩
    ∧ (ping (getIPInfo (HttpResult.response st (JsonBody.obj fields)))
        connectResult s).2 ≠ LogLine.lookupFailed
    ∧ (ping (getIPInfo (HttpResult.response st (JsonBody.obj fields)))
        (some d) s).2 = LogLine.connected "" := by
  have hnone : fields.reverse.lookup "org" = none :=
    lookup_none_of_no_org _ (fun p hp => hno p (List.mem_reverse.mp hp))
  have hok : getIPInfo (HttpResult.response st (JsonBody.obj fields))
      = Except.ok ⟨""⟩ := by
    simp [getIPInfo, decodeIPInfo, hnone]
  refine ⟨hok, ?_, ?_⟩
  · rw [hok]
    cases connectResult <;> simp [ping]
  · rw [hok]
    simp [ping]

/-- Witness for C10 at a concrete org-less body `{"city": "Berlin"}`. -/
theorem missing_org_yields_empty_isp_witness :
    getIPInfo (HttpResult.response 200 (JsonBody.obj [("city", "Berlin")]))
      = Except.ok ⟨""⟩
    ∧ (ping (getIPInfo (HttpResult.response 200 (JsonBody.obj [("city", "Berlin")])))
        none initStats).2 ≠ LogLine.lookupFailed
    ∧ (ping (getIPInfo (HttpResult.response 200 (JsonBody.obj [("city", "Berlin")])))
        (some 7) initStats).2 = LogLine.connected "" :=
  missing_org_yields_empty_isp 200 [("city", "Berlin")] (by decide)
    none initStats 7

/-! ### Claim C8: IP validation -/

theorem not_special_of_digit {c : Char} (h : isDigitChar c) :
    ¬(c = '.' ∨ c = ':' ∨ c = '%') := by
  rintro (rfl | rfl | rfl) <;> exact absurd h (by decide)

theorem not_special_of_hex {c : Char} {v : Nat} (h : hexDigitVal c = some v) :
    ¬(c = '.' ∨ c = ':' ∨ c = '%') := by
  rintro (rfl | rfl | rfl)
  · rw [(by decide : hexDigitVal ('.') = none)] at h; cases h
  · rw [(by decide : hexDigitVal (':') = none)] at h; cases h
  · rw [(by decide : hexDigitVal ('%') = none)] at h; cases h

theorem findSpecial_cons_of_not_special {c : Char}
    (h : ¬(c = '.' ∨ c = ':' ∨ c = '%')) (cs : List Char) :
    findSpecial (c :: cs) = findSpecial cs := by
  simp only [findSpecial, if_neg h]

theorem scanHexGroup_findSpecial :
    ∀ (s : List Char) (acc off a o : Nat) (rest : List Char),
      scanHexGroup s acc off = some (a, o, rest) →
      findSpecial s = findSpecial rest := by
  intro s
  induction s with
  | nil =>
    intro acc off a o rest h
    simp only [scanHexGroup, Option.some.injEq, Prod.mk.injEq] at h
    obtain ⟨-, -, hrest⟩ := h
    rw [← hrest]
  | cons c cs ih =>
    intro acc off a o rest h
    simp only [scanHexGroup] at h
    cases hv : hexDigitVal c with
    | none =>
      rw [hv] at h
      simp only [Option.some.injEq, Prod.mk.injEq] at h
      obtain ⟨-, -, hrest⟩ := h
      rw [← hrest]
    | some v =>
      rw [hv] at h
      dsimp only at h
      split at h
      · exact Option.noConfusion h
      · rw [findSpecial_cons_of_not_special (not_special_of_hex hv)]
        exact ih _ _ _ _ _ h

theorem parseIPv4Fields_findSpecial :
    ∀ (s : List Char) (val digLen pos : Nat), pos ≤ 3 →
      parseIPv4Fields s val digLen pos = true →
      findSpecial s = if pos < 3 then some '.' else none := by
  intro s
  induction s with
  | nil =>
    intro val digLen pos hle h
    simp only [parseIPv4Fields, beq_iff_eq] at h
    subst h
    simp [findSpecial]
  | cons c cs ih =>
    intro val digLen pos hle h
    simp only [parseIPv4Fields] at h
    by_cases hd : isDigitChar c
    · rw [if_pos hd] at h
      split at h
      · exact Bool.noConfusion h
      · split at h
        · exact Bool.noConfusion h
        · rw [findSpecial_cons_of_not_special (not_special_of_digit hd)]
          exact ih _ _ _ hle h
    · rw [if_neg hd] at h
      by_cases hdot : c = '.'
      · rw [if_pos hdot] at h
        subst hdot
        split at h
        · exact Bool.noConfusion h
        · split at h
          · exact Bool.noConfusion h
          · split at h
            · exact Bool.noConfusion h
            · rename_i hpos3
              have hlt : pos < 3 := by
                simp only [beq_iff_eq] at hpos3
                omega
              rw [if_pos hlt]
              simp [findSpecial]
      · rw [if_neg hdot] at h
        exact Bool.noConfusion h

theorem parseIPv4_findSpecial (s : List Char) (h : parseIPv4 s = true) :
    findSpecial s = some '.' := by
  have hfs := parseIPv4Fields_findSpecial s 0 0 0 (by omega) h
  simpa using hfs

theorem parseIPv6Loop_entry_colon (fuel2 : Nat) (s : List Char)
    (res : Nat × Bool × List Char)
    (hloop : parseIPv6Loop (fuel2 + 1) s 0 false = some res)
    (hpost : ipv6Post (some res) = true) :
    findSpecial s = some ':' := by
  rw [parseIPv6Loop, if_pos (by omega : (0:Nat) < 16)] at hloop
  cases hscan : scanHexGroup s 0 0 with
  | none =>
    rw [hscan] at hloop
    exact Option.noConfusion hloop
  | some triple =>
    obtain ⟨acc, off, rest⟩ := triple
    rw [hscan] at hloop
    dsimp only at hloop
    have hfs : findSpecial s = findSpecial rest :=
      scanHexGroup_findSpecial s 0 0 _ _ _ hscan
    split at hloop
    · exact Option.noConfusion hloop
    · rcases rest with - | ⟨c, rest1⟩
      · -- group followed by end of input: loop exits at i = 2 with no
        -- ellipsis, and the post-check rejects
        simp only [Option.some.injEq] at hloop
        rw [← hloop] at hpost
        simp [ipv6Post] at hpost
      · dsimp only at hloop
        by_cases hdot : c = '.'
        · subst hdot
          simp at hloop
        · by_cases hcolon : c = ':'
          · subst hcolon
            rw [hfs]
            simp [findSpecial]
          · rw [if_neg hdot, if_neg hcolon] at hloop
            exact Option.noConfusion hloop

theorem parseIPv6_findSpecial (s : List Char) (h : parseIPv6 s = true) :
    findSpecial s = some ':' := by
  rcases s with - | ⟨c1, - | ⟨c2, rest⟩⟩
  · exact absurd h (by decide)
  · simp only [parseIPv6] at h
    cases hl : parseIPv6Loop 8 [c1] 0 false with
    | none => rw [hl] at h; exact absurd h (by simp [ipv6Post])
    | some res =>
      rw [hl] at h
      exact parseIPv6Loop_entry_colon 7 _ res hl h
  · simp only [parseIPv6] at h
    by_cases hcc : c1 = ':' ∧ c2 = ':'
    · obtain ⟨rfl, -⟩ := hcc
      simp [findSpecial]
    · rw [if_neg hcc] at h
      cases hl : parseIPv6Loop 8 (c1 :: c2 :: rest) 0 false with
      | none => rw [hl] at h; exact absurd h (by simp [ipv6Post])
      | some res =>
        rw [hl] at h
        exact parseIPv6Loop_entry_colon 7 _ res hl h

theorem goParseIPValid_eq_or (s : List Char) :
    goParseIPValid s = (parseIPv4 s || parseIPv6 s) := by
  cases hf : findSpecial s with
  | none =>
    have h4 : parseIPv4 s = false := by
      cases h4 : parseIPv4 s
      · rfl
      · rw [parseIPv4_findSpecial s h4] at hf
        exact Option.noConfusion hf
    have h6 : parseIPv6 s = false := by
      cases h6 : parseIPv6 s
      · rfl
      · rw [parseIPv6_findSpecial s h6] at hf
        exact Option.noConfusion hf
    simp [goParseIPValid, hf, h4, h6]
  | some c =>
    by_cases hc : c = '.'
    · subst hc
      have h6 : parseIPv6 s = false := by
        cases h6 : parseIPv6 s
        · rfl
        · rw [parseIPv6_findSpecial s h6] at hf
          simp only [Option.some.injEq] at hf
          exact absurd hf (by decide)
      simp [goParseIPValid, hf, h6]
    · by_cases hc2 : c = ':'
      · subst hc2
        have h4 : parseIPv4 s = false := by
          cases h4 : parseIPv4 s
          · rfl
          · rw [parseIPv4_findSpecial s h4] at hf
            simp only [Option.some.injEq] at hf
            exact absurd hf (by decide)
        simp [goParseIPValid, hf, h4, (by decide : ¬((':' : Char) = '.'))]
      · have h4 : parseIPv4 s = false := by
          cases h4 : parseIPv4 s
          · rfl
          · rw [parseIPv4_findSpecial s h4] at hf
            simp only [Option.some.injEq] at hf
            exact absurd hf.symm hc
        have h6 : parseIPv6 s = false := by
          cases h6 : parseIPv6 s
          · rfl
          · rw [parseIPv6_findSpecial s h6] at hf
            simp only [Option.some.injEq] at hf
            exact absurd hf.symm hc2
        simp [goParseIPValid, hf, h4, h6, hc, hc2]

/-- Claim C8: `isValidIP` accepts a string exactly when it is a
well-formed IPv4 dotted-quad literal (`parseIPv4`, the `netip` IPv4
grammar) or a well-formed IPv6 literal (`parseIPv6`, the `netip` IPv6
grammar), with the spec's four examples; the embedding is a pure parser,
no DNS resolution is involved. -/
theorem valid_ip_iff (ip : String) :
    (isValidIP ip = true ↔ parseIPv4 ip.data = true ∨ parseIPv6 ip.data = true)
    ∧ isValidIP "192.168.1.1" = true
    ∧ isValidIP "::1" = true
    ∧ isValidIP "999.1.1.1" = false
    ∧ isValidIP "not-an-ip" = false := by
  refine ⟨?_, by decide, by decide, by decide, by decide⟩
  rw [isValidIP, goParseIPValid_eq_or]
  simp

/-- Witness for C8: `valid_ip_iff` applied at the IPv4 literal
`10.0.0.1`, accepted through the IPv4 grammar. -/
theorem valid_ip_iff_witness : isValidIP "10.0.0.1" = true :=
  (valid_ip_iff "10.0.0.1").1.mpr (Or.inl (by decide))
